import Mathlib

/-!
Verification of the chainlink excerpt: the pipeline `ResultTask` sink and the
offchainreporting `KeyStore`.

The Go code is embedded shallowly:
- Go `interface{}` values (task values, error slots, the aggregated slices the
  ResultTask builds) become the inductive `GoVal`; a nil Go `error` is
  `GoVal.nil` in an error slot.
- Go maps become shadowing association lists (`mapInsert` prepends, `lookupKey`
  takes the first match), which matches map insert/overwrite and lookup.
- `multierr` accumulation becomes a `List Err`; the combined error is nil
  exactly when the list is empty.
- Fallible external collaborators (gorm queries/writes, `p2pkey.Key` /
  `ocrkey.KeyBundle` crypto) are parameters of the embedded methods, returning
  Go-style `(value, error)` pairs; the database is explicit state.
-/

namespace pipeline

/-- Universal runtime value, standing in for Go `interface{}`; error slots use
`GoVal.nil` for a nil Go error and `GoVal.err` for a non-nil one. -/
inductive GoVal where
  | nil : GoVal
  | atom : Nat → GoVal
  | str : String → GoVal
  | err : String → GoVal
  | arr : List GoVal → GoVal

/-- Result of one task: a value slot and an error slot. -/
structure Result where
  Value : GoVal
  Error : GoVal

/-- Task type tags are strings in the source. -/
abbrev TaskType := String

def TaskTypeResult : TaskType := "result"

/-- Shared record embedded in every task variant; its contents are irrelevant
to the ResultTask behaviour. -/
structure BaseTask where
  ID : Nat
  Index : Nat
deriving DecidableEq, Repr

/-- The synthetic sink task appended to every pipeline. -/
structure ResultTask where
  base : BaseTask
deriving DecidableEq, Repr

/-- The per-run execution record handed to `Run`; ResultTask ignores it. -/
structure TaskRun where
  ID : Nat
deriving DecidableEq, Repr

def ResultTask.«Type» (_t : ResultTask) : TaskType :=
  TaskTypeResult

/-- Embeds `ResultTask.Run`: builds the parallel `values` and `errors` slices
from the inputs and returns a Result holding both. -/
def ResultTask.Run (_t : ResultTask) (_taskRun : TaskRun) (inputs : List Result) : Result :=
  let values := inputs.map (fun input => input.Value)
  let errors := inputs.map (fun input => input.Error)
  { Value := GoVal.arr values, Error := GoVal.arr errors }

end pipeline

namespace offchainreporting

/-- Go error messages. -/
abbrev Err := String

/-- `models.PeerID`. -/
abbrev PeerID := String

/-- `models.Sha256Hash`. -/
abbrev Sha256Hash := String

/-- Decrypted p2p key; the payload is opaque to the keystore. -/
structure P2PKey where
  PrivKey : Nat
deriving DecidableEq, Repr

/-- Go zero value `p2pkey.Key{}`. -/
def P2PKey.zero : P2PKey := ⟨0⟩

/-- Encrypted p2p key row; the keystore reads `PeerID` and gorm conflicts on
`PubKey`. -/
structure EncryptedP2PKey where
  PeerID : PeerID
  PubKey : Nat
  EncryptedPrivKey : Nat
deriving DecidableEq, Repr

/-- Go zero value `p2pkey.EncryptedP2PKey{}`. -/
def EncryptedP2PKey.zero : EncryptedP2PKey := ⟨"", 0, 0⟩

/-- Decrypted OCR key bundle; the keystore reads its `ID`. -/
structure KeyBundle where
  ID : Sha256Hash
  material : Nat
deriving DecidableEq, Repr

/-- Go zero value `ocrkey.KeyBundle{}`. -/
def KeyBundle.zero : KeyBundle := ⟨"", 0⟩

/-- Encrypted OCR key bundle row; the keystore reads its `ID`. -/
structure EncryptedKeyBundle where
  ID : Sha256Hash
  blob : Nat
deriving DecidableEq, Repr

/-- Go zero value `ocrkey.EncryptedKeyBundle{}`. -/
def EncryptedKeyBundle.zero : EncryptedKeyBundle := ⟨"", 0⟩

/-- `errors.Wrapf`: nil stays nil, a non-nil error gets a message prefix. -/
def wrapf (e : Option Err) (msg : String) : Option Err :=
  e.map (fun s => msg ++ ": " ++ s)

/-- `multierr.Append errs err`: a nil error leaves the accumulator unchanged,
a non-nil one is appended.  The combined error is nil iff the list is empty. -/
def multierrAppend (errs : List Err) (e : Option Err) : List Err :=
  match e with
  | none => errs
  | some s => errs ++ [s]

/-- Go map insert (overwrite) on a shadowing association list. -/
def mapInsert {α β : Type} (m : List (α × β)) (k : α) (v : β) : List (α × β) :=
  (k, v) :: m

/-- Go map lookup on a shadowing association list: first match wins. -/
def lookupKey {β : Type} (m : List (PeerID × β)) (k : PeerID) : Option β :=
  match m with
  | [] => none
  | (k2, v) :: rest => if k2 = k then some v else lookupKey rest k

/-- The gorm database: stored rows plus the outcome of each fallible call.  A
failing query returns no rows; a failing write leaves the rows unchanged. -/
structure DB where
  p2pRows : List EncryptedP2PKey
  ocrRows : List EncryptedKeyBundle
  findP2PErr : Option Err
  findOCRErr : Option Err
  upsertP2PErr : Option Err
  createOCRErr : Option Err
deriving DecidableEq, Repr

/-- `KeyStore`: the database handle and the two in-memory decrypted-key caches. -/
structure KeyStore where
  db : DB
  p2pkeys : List (PeerID × P2PKey)
  ocrkeys : List (Sha256Hash × KeyBundle)
deriving DecidableEq, Repr

/-- `NewKeyStore`: empty caches over the given database. -/
def NewKeyStore (db : DB) : KeyStore :=
  { db := db, p2pkeys := [], ocrkeys := [] }

/-- `FindEncryptedP2PKeys`: all stored p2p rows, or no rows and the query error. -/
def KeyStore.FindEncryptedP2PKeys (ks : KeyStore) : List EncryptedP2PKey × Option Err :=
  match ks.db.findP2PErr with
  | some e => ([], some e)
  | none => (ks.db.p2pRows, none)

/-- `FindEncryptedOCRKeyBundles`: all stored OCR rows, or no rows and the query
error. -/
def KeyStore.FindEncryptedOCRKeyBundles (ks : KeyStore) : List EncryptedKeyBundle × Option Err :=
  match ks.db.findOCRErr with
  | some e => ([], some e)
  | none => (ks.db.ocrRows, none)

/-- The p2p loop of `Unlock`: decrypt each fetched key, derive its peer ID,
append both errors to the accumulator, and insert the (possibly zero) key into
the cache under the derived peer ID unconditionally. -/
def unlockP2PLoop (decrypt : EncryptedP2PKey → String → P2PKey × Option Err)
    (getPeerID : P2PKey → PeerID × Option Err) (password : String)
    (eks : List EncryptedP2PKey) (m : List (PeerID × P2PKey)) (errs : List Err) :
    List (PeerID × P2PKey) × List Err :=
  match eks with
  | [] => (m, errs)
  | ek :: rest =>
    let kd := decrypt ek password
    let errs1 := multierrAppend errs kd.2
    let pid := getPeerID kd.1
    let errs2 := multierrAppend errs1 pid.2
    unlockP2PLoop decrypt getPeerID password rest (mapInsert m pid.1 kd.1) errs2

/-- The OCR loop of `Unlock`: decrypt each fetched bundle, append the error,
and insert the bundle under its own ID only when decryption returned a non-nil
bundle. -/
def unlockOCRLoop (decrypt : EncryptedKeyBundle → String → Option KeyBundle × Option Err)
    (password : String) (eks : List EncryptedKeyBundle)
    (m : List (Sha256Hash × KeyBundle)) (errs : List Err) :
    List (Sha256Hash × KeyBundle) × List Err :=
  match eks with
  | [] => (m, errs)
  | ek :: rest =>
    let kd := decrypt ek password
    let errs1 := multierrAppend errs kd.2
    match kd.1 with
    | some k => unlockOCRLoop decrypt password rest (mapInsert m k.ID k) errs1
    | none => unlockOCRLoop decrypt password rest m errs1

/-- `KeyStore.Unlock`: fetch both row sets, run both decrypt loops over the
caches, and return the updated store with the accumulated multierr. -/
def KeyStore.Unlock (decryptP2P : EncryptedP2PKey → String → P2PKey × Option Err)
    (getPeerID : P2PKey → PeerID × Option Err)
    (decryptOCR : EncryptedKeyBundle → String → Option KeyBundle × Option Err)
    (ks : KeyStore) (password : String) : KeyStore × List Err :=
  let f1 := ks.FindEncryptedP2PKeys
  let errs0 := multierrAppend [] f1.2
  let f2 := ks.FindEncryptedOCRKeyBundles
  let errs1 := multierrAppend errs0 f2.2
  let r1 := unlockP2PLoop decryptP2P getPeerID password f1.1 ks.p2pkeys errs1
  let r2 := unlockOCRLoop decryptOCR password f2.1 ks.ocrkeys r1.2
  ({ ks with p2pkeys := r1.1, ocrkeys := r2.1 }, r2.2)

/-- `DecryptedP2PKey`: read-only cache lookup; a miss yields the zero key and
`false`.  The store is returned unchanged. -/
def KeyStore.DecryptedP2PKey (ks : KeyStore) (peerID : PeerID) :
    (P2PKey × Bool) × KeyStore :=
  match lookupKey ks.p2pkeys peerID with
  | some k => ((k, true), ks)
  | none => ((P2PKey.zero, false), ks)

/-- `DecryptedOCRKey`: read-only cache lookup; a miss yields the zero bundle
and `false`.  The store is returned unchanged. -/
def KeyStore.DecryptedOCRKey (ks : KeyStore) (hash : Sha256Hash) :
    (KeyBundle × Bool) × KeyStore :=
  match lookupKey ks.ocrkeys hash with
  | some k => ((k, true), ks)
  | none => ((KeyBundle.zero, false), ks)

/-- `UpsertEncryptedP2PKey`: on success insert the row, updating the encrypted
private key in place when a row with the same `PubKey` exists; on failure wrap
the error and leave the rows unchanged. -/
def KeyStore.UpsertEncryptedP2PKey (ks : KeyStore) (k : EncryptedP2PKey) :
    KeyStore × Option Err :=
  match ks.db.upsertP2PErr with
  | some e => (ks, wrapf (some e) "while inserting p2p key")
  | none =>
    let rows :=
      if ks.db.p2pRows.any (fun r => r.PubKey == k.PubKey) then
        ks.db.p2pRows.map (fun r =>
          if r.PubKey == k.PubKey then { r with EncryptedPrivKey := k.EncryptedPrivKey } else r)
      else
        ks.db.p2pRows ++ [k]
    ({ ks with db := { ks.db with p2pRows := rows } }, none)

/-- `CreateEncryptedOCRKeyBundle`: on success append the row; on failure wrap
the error and leave the rows unchanged. -/
def KeyStore.CreateEncryptedOCRKeyBundle (ks : KeyStore) (enc : EncryptedKeyBundle) :
    KeyStore × Option Err :=
  match ks.db.createOCRErr with
  | some e => (ks, wrapf (some e) "while persisting the new encrypted OCR key bundle")
  | none => ({ ks with db := { ks.db with ocrRows := ks.db.ocrRows ++ [enc] } }, none)

/-- `GenerateEncryptedP2PKey`: create a key, encrypt it, persist the encrypted
record, then cache the key under the record's peer ID; each failing step
returns zero values, the (wrapped) error, and no cache write. -/
def KeyStore.GenerateEncryptedP2PKey (createKey : P2PKey × Option Err)
    (toEncrypted : P2PKey → String → EncryptedP2PKey × Option Err)
    (ks : KeyStore) (password : String) :
    (P2PKey × EncryptedP2PKey × Option Err) × KeyStore :=
  match createKey.2 with
  | some e =>
    ((P2PKey.zero, EncryptedP2PKey.zero, wrapf (some e) "while generating new p2p key"), ks)
  | none =>
    let enc := toEncrypted createKey.1 password
    match enc.2 with
    | some e =>
      ((P2PKey.zero, EncryptedP2PKey.zero, wrapf (some e) "while encrypting p2p key"), ks)
    | none =>
      let up := ks.UpsertEncryptedP2PKey enc.1
      match up.2 with
      | some e => ((P2PKey.zero, EncryptedP2PKey.zero, some e), up.1)
      | none =>
        ((createKey.1, enc.1, none),
         { up.1 with p2pkeys := mapInsert up.1.p2pkeys enc.1.PeerID createKey.1 })

/-- `GenerateEncryptedOCRKeyBundle`: create a bundle, encrypt it, persist the
encrypted record, then cache the bundle under the record's ID; each failing
step returns zero values, the (wrapped) error, and no cache write. -/
def KeyStore.GenerateEncryptedOCRKeyBundle (newKeyBundle : KeyBundle × Option Err)
    (encrypt : KeyBundle → String → EncryptedKeyBundle × Option Err)
    (ks : KeyStore) (password : String) :
    (KeyBundle × EncryptedKeyBundle × Option Err) × KeyStore :=
  match newKeyBundle.2 with
  | some e =>
    ((KeyBundle.zero, EncryptedKeyBundle.zero,
      wrapf (some e) "while generating the new OCR key bundle"), ks)
  | none =>
    let enc := encrypt newKeyBundle.1 password
    match enc.2 with
    | some e =>
      ((KeyBundle.zero, EncryptedKeyBundle.zero,
        wrapf (some e) "while encrypting the new OCR key bundle"), ks)
    | none =>
      let cr := ks.CreateEncryptedOCRKeyBundle enc.1
      match cr.2 with
      | some e => ((KeyBundle.zero, EncryptedKeyBundle.zero, some e), cr.1)
      | none =>
        ((newKeyBundle.1, enc.1, none),
         { cr.1 with ocrkeys := mapInsert cr.1.ocrkeys enc.1.ID newKeyBundle.1 })

/-- Concrete database with one stored p2p key and one stored OCR bundle, every
gorm call succeeding. -/
def witnessDB : DB :=
  { p2pRows := [⟨"peerA", 1, 11⟩], ocrRows := [⟨"hashA", 5⟩],
    findP2PErr := none, findOCRErr := none, upsertP2PErr := none, createOCRErr := none }

/-- Keystore over `witnessDB` with empty caches. -/
def witnessKS : KeyStore := NewKeyStore witnessDB

/-- Concrete always-succeeding p2p decryption. -/
def witnessDP : EncryptedP2PKey → String → P2PKey × Option Err :=
  fun ek _ => (⟨ek.EncryptedPrivKey⟩, none)

/-- Concrete always-succeeding peer-ID derivation. -/
def witnessGP : P2PKey → PeerID × Option Err :=
  fun _ => ("peerX", none)

/-- Concrete always-succeeding OCR bundle decryption. -/
def witnessDO : EncryptedKeyBundle → String → Option KeyBundle × Option Err :=
  fun ek _ => (some ⟨ek.ID, 7⟩, none)

/-- Concrete always-succeeding p2p key encryption. -/
def witnessToEnc : P2PKey → String → EncryptedP2PKey × Option Err :=
  fun k _ => (⟨"peerZ", 9, k.PrivKey⟩, none)

/-- Concrete always-succeeding OCR bundle encryption. -/
def witnessEncB : KeyBundle → String → EncryptedKeyBundle × Option Err :=
  fun b _ => (⟨b.ID, 4⟩, none)

/-- Concrete always-failing p2p decryption, returning the Go zero key. -/
def witnessDPFail : EncryptedP2PKey → String → P2PKey × Option Err :=
  fun _ _ => (P2PKey.zero, some "could not decrypt")

/-- Concrete always-failing OCR decryption, returning a nil bundle. -/
def witnessDOFail : EncryptedKeyBundle → String → Option KeyBundle × Option Err :=
  fun _ _ => (none, some "could not decrypt")

end offchainreporting

namespace pipeline

/-- C1: `ResultTask.Run` returns a Result whose value slot and error slot are
two equal-length sequences in predecessor input order — both have the length of
the input list, and position `i` holds `inputs[i].Value` resp. `inputs[i].Error`. -/
theorem resultTask_run_parallel_sequences (t : ResultTask) (tr : TaskRun)
    (inputs : List Result) :
    ∃ vs es : List GoVal,
      (ResultTask.Run t tr inputs).Value = GoVal.arr vs ∧
      (ResultTask.Run t tr inputs).Error = GoVal.arr es ∧
      vs.length = inputs.length ∧ es.length = inputs.length ∧
      (∀ i : Nat, vs[i]? = (inputs[i]?).map Result.Value) ∧
      (∀ i : Nat, es[i]? = (inputs[i]?).map Result.Error) := by
  refine ⟨inputs.map Result.Value, inputs.map Result.Error, rfl, rfl, ?_, ?_, ?_, ?_⟩
  · simp
  · simp
  · intro i; simp
  · intro i; simp

/-- C2: `ResultTask.Run` never fails — even when every input carries a non-nil
error it returns the populated Result whose error sequence records each input
error positionally alongside the input values. -/
theorem resultTask_run_never_fails (t : ResultTask) (tr : TaskRun)
    (inputs : List Result) (hall : ∀ r ∈ inputs, r.Error ≠ GoVal.nil) :
    ResultTask.Run t tr inputs =
      { Value := GoVal.arr (inputs.map Result.Value),
        Error := GoVal.arr (inputs.map Result.Error) } := by
  rfl

/-- Witness for C2 on an input list where every Result carries a non-nil error. -/
theorem resultTask_run_never_fails_witness :
    (∀ r ∈ [Result.mk GoVal.nil (GoVal.err "timeout"),
            Result.mk (GoVal.atom 7) (GoVal.err "boom")], r.Error ≠ GoVal.nil) ∧
    ResultTask.Run ⟨⟨0, 0⟩⟩ ⟨0⟩
        [Result.mk GoVal.nil (GoVal.err "timeout"),
         Result.mk (GoVal.atom 7) (GoVal.err "boom")] =
      { Value := GoVal.arr [GoVal.nil, GoVal.atom 7],
        Error := GoVal.arr [GoVal.err "timeout", GoVal.err "boom"] } :=
  ⟨by simp, resultTask_run_never_fails ⟨⟨0, 0⟩⟩ ⟨0⟩ _ (by simp)⟩

/-- C7: `Type()` is pure, returns the Result variant tag `TaskTypeResult`, and
does not depend on the task's BaseTask contents. -/
theorem resultTask_type_constant (t u : ResultTask) :
    ResultTask.«Type» t = TaskTypeResult ∧
    ResultTask.«Type» t = ResultTask.«Type» u :=
  ⟨rfl, rfl⟩

/-- C10: `ResultTask.Run` is deterministic and independent of its TaskRun
argument (and of the task value itself): the output is a function of the inputs
list alone. -/
theorem resultTask_run_taskRun_independent (t u : ResultTask)
    (tr1 tr2 : TaskRun) (inputs : List Result) :
    ResultTask.Run t tr1 inputs = ResultTask.Run u tr2 inputs :=
  rfl

end pipeline

namespace offchainreporting

theorem multierrAppend_eq (errs : List Err) (e : Option Err) :
    multierrAppend errs e = errs ++ e.toList := by
  cases e <;> simp [multierrAppend]

theorem lookupKey_mapInsert_self {β : Type} (m : List (PeerID × β)) (k : PeerID) (v : β) :
    lookupKey (mapInsert m k v) k = some v := by
  simp [mapInsert, lookupKey]

theorem lookupKey_mapInsert_ne {β : Type} (m : List (PeerID × β)) (k k2 : PeerID) (v : β)
    (h : k ≠ k2) : lookupKey (mapInsert m k v) k2 = lookupKey m k2 := by
  simp [mapInsert, lookupKey, h]

theorem unlockP2PLoop_errs (d : EncryptedP2PKey → String → P2PKey × Option Err)
    (g : P2PKey → PeerID × Option Err) (pw : String) (eks : List EncryptedP2PKey) :
    ∀ m errs, (unlockP2PLoop d g pw eks m errs).2 =
      errs ++ eks.flatMap (fun ek => ((d ek pw).2).toList ++ ((g (d ek pw).1).2).toList) := by
  induction eks with
  | nil => intro m errs; simp [unlockP2PLoop]
  | cons ek rest ih =>
    intro m errs
    simp [unlockP2PLoop, ih, multierrAppend_eq]

theorem unlockOCRLoop_errs (d : EncryptedKeyBundle → String → Option KeyBundle × Option Err)
    (pw : String) (eks : List EncryptedKeyBundle) :
    ∀ m errs, (unlockOCRLoop d pw eks m errs).2 =
      errs ++ eks.flatMap (fun ek => ((d ek pw).2).toList) := by
  induction eks with
  | nil => intro m errs; simp [unlockOCRLoop]
  | cons ek rest ih =>
    intro m errs
    cases hd : (d ek pw).1 with
    | none => simp [unlockOCRLoop, hd, ih, multierrAppend_eq]
    | some k => simp [unlockOCRLoop, hd, ih, multierrAppend_eq]

theorem unlockP2PLoop_lookup_frame (d : EncryptedP2PKey → String → P2PKey × Option Err)
    (g : P2PKey → PeerID × Option Err) (pw : String) (eks : List EncryptedP2PKey)
    (p : PeerID) :
    ∀ m errs, (∀ ek ∈ eks, (g (d ek pw).1).1 ≠ p) →
      lookupKey (unlockP2PLoop d g pw eks m errs).1 p = lookupKey m p := by
  induction eks with
  | nil => intro m errs _; simp [unlockP2PLoop]
  | cons ek rest ih =>
    intro m errs hne
    have hhd : (g (d ek pw).1).1 ≠ p := hne ek (by simp)
    have hrest : ∀ ek2 ∈ rest, (g (d ek2 pw).1).1 ≠ p := fun ek2 h2 => hne ek2 (by simp [h2])
    simp only [unlockP2PLoop]
    rw [ih _ _ hrest, lookupKey_mapInsert_ne _ _ _ _ hhd]

theorem unlockP2PLoop_lookup (d : EncryptedP2PKey → String → P2PKey × Option Err)
    (g : P2PKey → PeerID × Option Err) (pw : String) (eks : List EncryptedP2PKey) :
    ∀ m errs, ∀ ek ∈ eks,
      (∀ ek2 ∈ eks, (g (d ek2 pw).1).1 = (g (d ek pw).1).1 → (d ek2 pw).1 = (d ek pw).1) →
      lookupKey (unlockP2PLoop d g pw eks m errs).1 (g (d ek pw).1).1 = some (d ek pw).1 := by
  induction eks with
  | nil => intro m errs ek hmem; simp at hmem
  | cons ek0 rest ih =>
    intro m errs ek hmem hagree
    rcases List.mem_cons.mp hmem with hek | hek
    · subst hek
      by_cases hcol : ∃ ek2 ∈ rest, (g (d ek2 pw).1).1 = (g (d ek pw).1).1
      · obtain ⟨ek2, hmem2, hpid2⟩ := hcol
        have hkey2 : (d ek2 pw).1 = (d ek pw).1 :=
          hagree ek2 (List.mem_cons_of_mem _ hmem2) hpid2
        have hagree2 : ∀ ek3 ∈ rest, (g (d ek3 pw).1).1 = (g (d ek2 pw).1).1 →
            (d ek3 pw).1 = (d ek2 pw).1 := by
          intro ek3 hmem3 hpid3
          rw [hkey2]
          exact hagree ek3 (List.mem_cons_of_mem _ hmem3) (by rw [hpid3, hpid2])
        have := ih (mapInsert m (g (d ek pw).1).1 (d ek pw).1)
          (multierrAppend (multierrAppend errs (d ek pw).2) (g (d ek pw).1).2)
          ek2 hmem2 hagree2
        rw [hpid2, hkey2] at this
        simpa [unlockP2PLoop] using this
      · push_neg at hcol
        simp only [unlockP2PLoop]
        rw [unlockP2PLoop_lookup_frame d g pw rest _ _ _ hcol,
          lookupKey_mapInsert_self]
    · have hagree2 : ∀ ek2 ∈ rest, (g (d ek2 pw).1).1 = (g (d ek pw).1).1 →
          (d ek2 pw).1 = (d ek pw).1 :=
        fun ek2 h2 => hagree ek2 (List.mem_cons_of_mem _ h2)
      simpa [unlockP2PLoop] using
        ih (mapInsert m (g (d ek0 pw).1).1 (d ek0 pw).1)
          (multierrAppend (multierrAppend errs (d ek0 pw).2) (g (d ek0 pw).1).2)
          ek hek hagree2

theorem unlockOCRLoop_lookup_frame (d : EncryptedKeyBundle → String → Option KeyBundle × Option Err)
    (pw : String) (eks : List EncryptedKeyBundle) (x : Sha256Hash) :
    ∀ m errs, (∀ ek ∈ eks, ∀ k, (d ek pw).1 = some k → k.ID ≠ x) →
      lookupKey (unlockOCRLoop d pw eks m errs).1 x = lookupKey m x := by
  induction eks with
  | nil => intro m errs _; simp [unlockOCRLoop]
  | cons ek rest ih =>
    intro m errs hne
    have hrest : ∀ ek2 ∈ rest, ∀ k, (d ek2 pw).1 = some k → k.ID ≠ x :=
      fun ek2 h2 => hne ek2 (by simp [h2])
    cases hd : (d ek pw).1 with
    | none =>
      simp only [unlockOCRLoop, hd]
      exact ih _ _ hrest
    | some k =>
      have hk : k.ID ≠ x := hne ek (by simp) k hd
      simp only [unlockOCRLoop, hd]
      rw [ih _ _ hrest, lookupKey_mapInsert_ne _ _ _ _ hk]

theorem unlockOCRLoop_lookup (d : EncryptedKeyBundle → String → Option KeyBundle × Option Err)
    (pw : String) (eks : List EncryptedKeyBundle) :
    ∀ m errs, ∀ ek ∈ eks, ∀ k, (d ek pw).1 = some k →
      (∀ ek2 ∈ eks, ∀ k2, (d ek2 pw).1 = some k2 → k2.ID = k.ID → k2 = k) →
      lookupKey (unlockOCRLoop d pw eks m errs).1 k.ID = some k := by
  induction eks with
  | nil => intro m errs ek hmem; simp at hmem
  | cons ek0 rest ih =>
    intro m errs ek hmem k hk hagree
    rcases List.mem_cons.mp hmem with hek | hek
    · subst hek
      by_cases hcol : ∃ ek2 ∈ rest, ∃ k2, (d ek2 pw).1 = some k2 ∧ k2.ID = k.ID
      · obtain ⟨ek2, hmem2, k2, hk2, hid2⟩ := hcol
        have hkeq : k2 = k := hagree ek2 (List.mem_cons_of_mem _ hmem2) k2 hk2 hid2
        have hagree2 : ∀ ek3 ∈ rest, ∀ k3, (d ek3 pw).1 = some k3 → k3.ID = k2.ID → k3 = k2 := by
          intro ek3 hmem3 k3 hk3 hid3
          rw [hkeq]
          exact hagree ek3 (List.mem_cons_of_mem _ hmem3) k3 hk3 (by rw [hid3, hkeq])
        have := ih (mapInsert m k.ID k) (multierrAppend errs (d ek pw).2) ek2 hmem2 k2 hk2 hagree2
        rw [hkeq] at this
        simpa [unlockOCRLoop, hk] using this
      · push_neg at hcol
        simp only [unlockOCRLoop, hk]
        rw [unlockOCRLoop_lookup_frame d pw rest _ _ _ hcol, lookupKey_mapInsert_self]
    · have hagree2 : ∀ ek2 ∈ rest, ∀ k2, (d ek2 pw).1 = some k2 → k2.ID = k.ID → k2 = k :=
        fun ek2 h2 => hagree ek2 (List.mem_cons_of_mem _ h2)
      cases hd : (d ek0 pw).1 with
      | none =>
        simpa [unlockOCRLoop, hd] using
          ih m (multierrAppend errs (d ek0 pw).2) ek hek k hk hagree2
      | some k0 =>
        simpa [unlockOCRLoop, hd] using
          ih (mapInsert m k0.ID k0) (multierrAppend errs (d ek0 pw).2) ek hek k hk hagree2

theorem unlockOCRLoop_map_unchanged (d : EncryptedKeyBundle → String → Option KeyBundle × Option Err)
    (pw : String) (eks : List EncryptedKeyBundle) :
    ∀ m errs, (∀ ek ∈ eks, (d ek pw).1 = none) →
      (unlockOCRLoop d pw eks m errs).1 = m := by
  induction eks with
  | nil => intro m errs _; simp [unlockOCRLoop]
  | cons ek rest ih =>
    intro m errs hfail
    have hhd : (d ek pw).1 = none := hfail ek (by simp)
    have hrest : ∀ ek2 ∈ rest, (d ek2 pw).1 = none := fun ek2 h2 => hfail ek2 (by simp [h2])
    simp only [unlockOCRLoop, hhd]
    exact ih _ _ hrest

theorem option_toList_eq_nil {α : Type} (o : Option α) : o.toList = [] ↔ o = none := by
  cases o <;> simp [Option.toList]

/-- C3: `KeyStore.Unlock` aggregates per-key failures rather than
short-circuiting: it walks all fetched p2p keys and OCR key bundles, and the
returned error is exactly the concatenation, in encounter order, of the two
fetch errors, each p2p key's decrypt and peer-ID-derivation errors, and each
OCR bundle's decrypt error; it is nil (empty) iff no failure occurred. -/
theorem unlock_aggregates_all_failures
    (dP : EncryptedP2PKey → String → P2PKey × Option Err)
    (gP : P2PKey → PeerID × Option Err)
    (dO : EncryptedKeyBundle → String → Option KeyBundle × Option Err)
    (ks : KeyStore) (pw : String) :
    (KeyStore.Unlock dP gP dO ks pw).2 =
      (ks.FindEncryptedP2PKeys.2).toList ++ (ks.FindEncryptedOCRKeyBundles.2).toList ++
      (ks.FindEncryptedP2PKeys.1).flatMap
        (fun ek => ((dP ek pw).2).toList ++ ((gP (dP ek pw).1).2).toList) ++
      (ks.FindEncryptedOCRKeyBundles.1).flatMap (fun ek => ((dO ek pw).2).toList) ∧
    ((KeyStore.Unlock dP gP dO ks pw).2 = [] ↔
      ks.FindEncryptedP2PKeys.2 = none ∧ ks.FindEncryptedOCRKeyBundles.2 = none ∧
      (∀ ek ∈ ks.FindEncryptedP2PKeys.1, (dP ek pw).2 = none ∧ (gP (dP ek pw).1).2 = none) ∧
      (∀ ek ∈ ks.FindEncryptedOCRKeyBundles.1, (dO ek pw).2 = none)) := by
  have heq : (KeyStore.Unlock dP gP dO ks pw).2 =
      (ks.FindEncryptedP2PKeys.2).toList ++ (ks.FindEncryptedOCRKeyBundles.2).toList ++
      (ks.FindEncryptedP2PKeys.1).flatMap
        (fun ek => ((dP ek pw).2).toList ++ ((gP (dP ek pw).1).2).toList) ++
      (ks.FindEncryptedOCRKeyBundles.1).flatMap (fun ek => ((dO ek pw).2).toList) := by
    simp [KeyStore.Unlock, unlockP2PLoop_errs, unlockOCRLoop_errs, multierrAppend_eq,
      List.append_assoc]
  refine ⟨heq, ?_⟩
  rw [heq]
  simp [option_toList_eq_nil]

/-- C5: `DecryptedP2PKey` and `DecryptedOCRKey` are pure read-only lookups:
they return the cached key with found=true exactly when the identifier is in
the corresponding cache, the zero key with found=false otherwise, and they
return the keystore state (caches and persistent store) unchanged. -/
theorem decrypted_lookups_pure_readonly (ks : KeyStore) (pid : PeerID) (x : Sha256Hash) :
    (ks.DecryptedP2PKey pid).1 =
      ((lookupKey ks.p2pkeys pid).getD P2PKey.zero, (lookupKey ks.p2pkeys pid).isSome) ∧
    (ks.DecryptedP2PKey pid).2 = ks ∧
    (ks.DecryptedOCRKey x).1 =
      ((lookupKey ks.ocrkeys x).getD KeyBundle.zero, (lookupKey ks.ocrkeys x).isSome) ∧
    (ks.DecryptedOCRKey x).2 = ks := by
  refine ⟨?_, ?_, ?_, ?_⟩
  · cases h : lookupKey ks.p2pkeys pid <;> simp [KeyStore.DecryptedP2PKey, h]
  · cases h : lookupKey ks.p2pkeys pid <;> simp [KeyStore.DecryptedP2PKey, h]
  · cases h : lookupKey ks.ocrkeys x <;> simp [KeyStore.DecryptedOCRKey, h]
  · cases h : lookupKey ks.ocrkeys x <;> simp [KeyStore.DecryptedOCRKey, h]

/-- C4: when `Unlock` returns a nil error, every fetched encrypted p2p key and
OCR key bundle has been decrypted into the in-memory caches: a subsequent
`DecryptedP2PKey` at the key's derived peer ID (resp. `DecryptedOCRKey` at the
bundle's ID) returns that decrypted key and found=true.  The hypotheses record
that the peer ID determines the decrypted key, that a bundle's ID determines
the bundle, and the Go convention that a nil decrypt error yields a non-nil
bundle. -/
theorem unlock_success_fills_caches
    (dP : EncryptedP2PKey → String → P2PKey × Option Err)
    (gP : P2PKey → PeerID × Option Err)
    (dO : EncryptedKeyBundle → String → Option KeyBundle × Option Err)
    (ks : KeyStore) (pw : String)
    (hp2p : ∀ ek1 ∈ ks.FindEncryptedP2PKeys.1, ∀ ek2 ∈ ks.FindEncryptedP2PKeys.1,
      (gP (dP ek1 pw).1).1 = (gP (dP ek2 pw).1).1 → (dP ek1 pw).1 = (dP ek2 pw).1)
    (hocr : ∀ ek1 ∈ ks.FindEncryptedOCRKeyBundles.1, ∀ ek2 ∈ ks.FindEncryptedOCRKeyBundles.1,
      ∀ k1 k2 : KeyBundle, (dO ek1 pw).1 = some k1 → (dO ek2 pw).1 = some k2 →
        k1.ID = k2.ID → k1 = k2)
    (hconv : ∀ ek ∈ ks.FindEncryptedOCRKeyBundles.1, (dO ek pw).2 = none →
      ∃ k, (dO ek pw).1 = some k)
    (hok : (KeyStore.Unlock dP gP dO ks pw).2 = []) :
    (∀ ek ∈ ks.FindEncryptedP2PKeys.1,
      (((KeyStore.Unlock dP gP dO ks pw).1).DecryptedP2PKey (gP (dP ek pw).1).1).1 =
        ((dP ek pw).1, true)) ∧
    (∀ ek ∈ ks.FindEncryptedOCRKeyBundles.1,
      ∃ k, (dO ek pw).1 = some k ∧
        (((KeyStore.Unlock dP gP dO ks pw).1).DecryptedOCRKey k.ID).1 = (k, true)) := by
  have herrs : (KeyStore.Unlock dP gP dO ks pw).2 =
      (ks.FindEncryptedP2PKeys.2).toList ++ (ks.FindEncryptedOCRKeyBundles.2).toList ++
      (ks.FindEncryptedP2PKeys.1).flatMap
        (fun ek => ((dP ek pw).2).toList ++ ((gP (dP ek pw).1).2).toList) ++
      (ks.FindEncryptedOCRKeyBundles.1).flatMap (fun ek => ((dO ek pw).2).toList) := by
    simp [KeyStore.Unlock, unlockP2PLoop_errs, unlockOCRLoop_errs, multierrAppend_eq,
      List.append_assoc]
  rw [herrs] at hok
  simp [option_toList_eq_nil] at hok
  constructor
  · intro ek hm
    have hagree2 : ∀ ek2 ∈ ks.FindEncryptedP2PKeys.1,
        (gP (dP ek2 pw).1).1 = (gP (dP ek pw).1).1 → (dP ek2 pw).1 = (dP ek pw).1 :=
      fun ek2 h2 hp => hp2p ek2 h2 ek hm hp
    have hl := unlockP2PLoop_lookup dP gP pw ks.FindEncryptedP2PKeys.1
      ks.p2pkeys
      (multierrAppend (multierrAppend [] ks.FindEncryptedP2PKeys.2)
        ks.FindEncryptedOCRKeyBundles.2)
      ek hm hagree2
    simp [KeyStore.Unlock, KeyStore.DecryptedP2PKey, hl]
  · intro ek hm
    obtain ⟨k, hk⟩ := hconv ek hm (hok.2.2.2 ek hm)
    refine ⟨k, hk, ?_⟩
    have hagree2 : ∀ ek2 ∈ ks.FindEncryptedOCRKeyBundles.1, ∀ k2 : KeyBundle,
        (dO ek2 pw).1 = some k2 → k2.ID = k.ID → k2 = k :=
      fun ek2 h2 k2 hk2 hid => hocr ek2 h2 ek hm k2 k hk2 hk hid
    have hl := unlockOCRLoop_lookup dO pw ks.FindEncryptedOCRKeyBundles.1
      ks.ocrkeys
      (unlockP2PLoop dP gP pw ks.FindEncryptedP2PKeys.1 ks.p2pkeys
        (multierrAppend (multierrAppend [] ks.FindEncryptedP2PKeys.2)
          ks.FindEncryptedOCRKeyBundles.2)).2
      ek hm k hk hagree2
    simp [KeyStore.Unlock, KeyStore.DecryptedOCRKey, hl]

/-- Witness for C4: a fully succeeding unlock of `witnessKS` makes both stored
keys available from the caches. -/
theorem unlock_success_fills_caches_witness :
    (KeyStore.Unlock witnessDP witnessGP witnessDO witnessKS "pw").2 = [] ∧
    (((KeyStore.Unlock witnessDP witnessGP witnessDO witnessKS "pw").1).DecryptedP2PKey
        "peerX").1 = (⟨11⟩, true) ∧
    (((KeyStore.Unlock witnessDP witnessGP witnessDO witnessKS "pw").1).DecryptedOCRKey
        "hashA").1 = (⟨"hashA", 7⟩, true) := by
  have hp2p : ∀ ek1 ∈ witnessKS.FindEncryptedP2PKeys.1,
      ∀ ek2 ∈ witnessKS.FindEncryptedP2PKeys.1,
      (witnessGP (witnessDP ek1 "pw").1).1 = (witnessGP (witnessDP ek2 "pw").1).1 →
      (witnessDP ek1 "pw").1 = (witnessDP ek2 "pw").1 := by decide
  have hocr : ∀ ek1 ∈ witnessKS.FindEncryptedOCRKeyBundles.1,
      ∀ ek2 ∈ witnessKS.FindEncryptedOCRKeyBundles.1,
      ∀ k1 k2 : KeyBundle, (witnessDO ek1 "pw").1 = some k1 →
        (witnessDO ek2 "pw").1 = some k2 → k1.ID = k2.ID → k1 = k2 := by
    intro ek1 h1 ek2 h2 k1 k2 hk1 hk2 _
    simp [witnessKS, NewKeyStore, witnessDB, KeyStore.FindEncryptedOCRKeyBundles] at h1 h2
    subst h1; subst h2
    simp [witnessDO] at hk1 hk2
    rw [← hk1, ← hk2]
  have hconv : ∀ ek ∈ witnessKS.FindEncryptedOCRKeyBundles.1,
      (witnessDO ek "pw").2 = none → ∃ k, (witnessDO ek "pw").1 = some k := by
    intro ek _ _
    exact ⟨⟨ek.ID, 7⟩, rfl⟩
  have h := unlock_success_fills_caches witnessDP witnessGP witnessDO witnessKS "pw"
    hp2p hocr hconv (by decide)
  refine ⟨by decide, ?_, ?_⟩
  · have hx := h.1 ⟨"peerA", 1, 11⟩ (by decide)
    simpa [witnessDP, witnessGP] using hx
  · obtain ⟨k, hk, hl⟩ := h.2 ⟨"hashA", 5⟩ (by decide)
    simp [witnessDO] at hk
    rw [← hk] at hl
    simpa using hl

theorem upsert_p2p_success_persists (ks : KeyStore) (k : EncryptedP2PKey)
    (h : (ks.UpsertEncryptedP2PKey k).2 = none) :
    ∃ r ∈ (ks.UpsertEncryptedP2PKey k).1.db.p2pRows,
      r.PubKey = k.PubKey ∧ r.EncryptedPrivKey = k.EncryptedPrivKey := by
  cases hu : ks.db.upsertP2PErr with
  | some e => simp [KeyStore.UpsertEncryptedP2PKey, hu, wrapf] at h
  | none =>
    simp only [KeyStore.UpsertEncryptedP2PKey, hu]
    by_cases hc : ks.db.p2pRows.any (fun r => r.PubKey == k.PubKey) = true
    · simp only [hc, if_true]
      obtain ⟨r0, hr0, hpk⟩ := List.any_eq_true.mp hc
      refine ⟨{ r0 with EncryptedPrivKey := k.EncryptedPrivKey }, ?_, ?_, rfl⟩
      · exact List.mem_map.mpr ⟨r0, hr0, by simp [hpk]⟩
      · simpa using hpk
    · simp only [Bool.not_eq_true] at hc
      simp only [hc, if_false]
      exact ⟨k, by simp, rfl, rfl⟩

theorem upsert_p2p_preserves_caches (ks : KeyStore) (k : EncryptedP2PKey) :
    (ks.UpsertEncryptedP2PKey k).1.p2pkeys = ks.p2pkeys ∧
    (ks.UpsertEncryptedP2PKey k).1.ocrkeys = ks.ocrkeys := by
  cases hu : ks.db.upsertP2PErr <;> simp [KeyStore.UpsertEncryptedP2PKey, hu]

theorem create_ocr_success_persists (ks : KeyStore) (enc : EncryptedKeyBundle)
    (h : (ks.CreateEncryptedOCRKeyBundle enc).2 = none) :
    enc ∈ (ks.CreateEncryptedOCRKeyBundle enc).1.db.ocrRows := by
  cases hu : ks.db.createOCRErr with
  | some e => simp [KeyStore.CreateEncryptedOCRKeyBundle, hu, wrapf] at h
  | none => simp [KeyStore.CreateEncryptedOCRKeyBundle, hu]

theorem create_ocr_preserves_caches (ks : KeyStore) (enc : EncryptedKeyBundle) :
    (ks.CreateEncryptedOCRKeyBundle enc).1.p2pkeys = ks.p2pkeys ∧
    (ks.CreateEncryptedOCRKeyBundle enc).1.ocrkeys = ks.ocrkeys := by
  cases hu : ks.db.createOCRErr <;> simp [KeyStore.CreateEncryptedOCRKeyBundle, hu]

/-- C6: generate-then-lookup round-trip — whenever the p2p (resp. OCR)
generator returns `(key, encryptedRecord, nil)`, the encrypted record is
persisted in the store and the key is cached, so a subsequent
`DecryptedP2PKey` at the record's peer ID (resp. `DecryptedOCRKey` at the
record's ID) returns exactly that key with found=true.  The two halves are
independent implications: each generator's round-trip holds whether or not the
other generator can succeed on the same keystore. -/
theorem generate_then_lookup_roundtrip
    (createKey : P2PKey × Option Err)
    (toEnc : P2PKey → String → EncryptedP2PKey × Option Err)
    (newB : KeyBundle × Option Err)
    (encB : KeyBundle → String → EncryptedKeyBundle × Option Err)
    (ks : KeyStore) (pw : String)
    (key : P2PKey) (enc : EncryptedP2PKey) (kb : KeyBundle) (encb : EncryptedKeyBundle) :
    ((KeyStore.GenerateEncryptedP2PKey createKey toEnc ks pw).1 = (key, enc, none) →
      (∃ r ∈ (KeyStore.GenerateEncryptedP2PKey createKey toEnc ks pw).2.db.p2pRows,
        r.PubKey = enc.PubKey ∧ r.EncryptedPrivKey = enc.EncryptedPrivKey) ∧
      (((KeyStore.GenerateEncryptedP2PKey createKey toEnc ks pw).2).DecryptedP2PKey
          enc.PeerID).1 = (key, true)) ∧
    ((KeyStore.GenerateEncryptedOCRKeyBundle newB encB ks pw).1 = (kb, encb, none) →
      encb ∈ (KeyStore.GenerateEncryptedOCRKeyBundle newB encB ks pw).2.db.ocrRows ∧
      (((KeyStore.GenerateEncryptedOCRKeyBundle newB encB ks pw).2).DecryptedOCRKey
          encb.ID).1 = (kb, true)) := by
  constructor
  · intro h1
    cases hc : createKey.2 with
    | some e => simp [KeyStore.GenerateEncryptedP2PKey, hc, wrapf] at h1
    | none =>
    cases ht : (toEnc createKey.1 pw).2 with
    | some e => simp [KeyStore.GenerateEncryptedP2PKey, hc, ht, wrapf] at h1
    | none =>
    cases hup : (ks.UpsertEncryptedP2PKey (toEnc createKey.1 pw).1).2 with
    | some e => simp [KeyStore.GenerateEncryptedP2PKey, hc, ht, hup] at h1
    | none =>
      simp only [KeyStore.GenerateEncryptedP2PKey, hc, ht, hup] at h1 ⊢
      obtain ⟨hkey, henc, -⟩ : createKey.1 = key ∧ (toEnc createKey.1 pw).1 = enc ∧ True := by
        simpa [Prod.ext_iff] using h1
      subst hkey
      subst henc
      constructor
      · simpa using upsert_p2p_success_persists ks (toEnc createKey.1 pw).1 hup
      · simp [KeyStore.DecryptedP2PKey, lookupKey_mapInsert_self]
  · intro h2
    cases hc : newB.2 with
    | some e => simp [KeyStore.GenerateEncryptedOCRKeyBundle, hc, wrapf] at h2
    | none =>
    cases ht : (encB newB.1 pw).2 with
    | some e => simp [KeyStore.GenerateEncryptedOCRKeyBundle, hc, ht, wrapf] at h2
    | none =>
    cases hcr : (ks.CreateEncryptedOCRKeyBundle (encB newB.1 pw).1).2 with
    | some e => simp [KeyStore.GenerateEncryptedOCRKeyBundle, hc, ht, hcr] at h2
    | none =>
      simp only [KeyStore.GenerateEncryptedOCRKeyBundle, hc, ht, hcr] at h2 ⊢
      obtain ⟨hkb, hencb, -⟩ : newB.1 = kb ∧ (encB newB.1 pw).1 = encb ∧ True := by
        simpa [Prod.ext_iff] using h2
      subst hkb
      subst hencb
      constructor
      · simpa using create_ocr_success_persists ks (encB newB.1 pw).1 hcr
      · simp [KeyStore.DecryptedOCRKey, lookupKey_mapInsert_self]

/-- Witness for C6: a fully succeeding p2p and OCR generation on `witnessKS`
persists each record and caches each key under the record's identifier. -/
theorem generate_then_lookup_roundtrip_witness :
    (KeyStore.GenerateEncryptedP2PKey (⟨5⟩, none) witnessToEnc witnessKS "pw").1 =
      (⟨5⟩, ⟨"peerZ", 9, 5⟩, none) ∧
    (KeyStore.GenerateEncryptedOCRKeyBundle (⟨"hashZ", 3⟩, none) witnessEncB witnessKS "pw").1 =
      (⟨"hashZ", 3⟩, ⟨"hashZ", 4⟩, none) ∧
    ((KeyStore.GenerateEncryptedP2PKey (⟨5⟩, none) witnessToEnc witnessKS "pw").2.DecryptedP2PKey
        "peerZ").1 = (⟨5⟩, true) ∧
    (⟨"hashZ", 4⟩ : EncryptedKeyBundle) ∈
      (KeyStore.GenerateEncryptedOCRKeyBundle (⟨"hashZ", 3⟩, none) witnessEncB
        witnessKS "pw").2.db.ocrRows ∧
    ((KeyStore.GenerateEncryptedOCRKeyBundle (⟨"hashZ", 3⟩, none) witnessEncB
        witnessKS "pw").2.DecryptedOCRKey "hashZ").1 = (⟨"hashZ", 3⟩, true) := by
  have h := generate_then_lookup_roundtrip (⟨5⟩, none) witnessToEnc (⟨"hashZ", 3⟩, none)
    witnessEncB witnessKS "pw" ⟨5⟩ ⟨"peerZ", 9, 5⟩ ⟨"hashZ", 3⟩ ⟨"hashZ", 4⟩
  have hp := h.1 (by decide)
  have ho := h.2 (by decide)
  exact ⟨by decide, by decide, hp.2, ho.1, ho.2⟩

/-- C9: the two generators are atomic with respect to the in-memory caches —
whenever one returns a non-nil error (key creation, encryption, or persistence
failed), it returns zero-valued key and record and both caches are exactly as
before the call; by contraposition the cache is written only on full success. -/
theorem generate_failure_atomic
    (createKey : P2PKey × Option Err)
    (toEnc : P2PKey → String → EncryptedP2PKey × Option Err)
    (newB : KeyBundle × Option Err)
    (encB : KeyBundle → String → EncryptedKeyBundle × Option Err)
    (ks : KeyStore) (pw : String) (e1 e2 : Err)
    (h1 : (KeyStore.GenerateEncryptedP2PKey createKey toEnc ks pw).1.2.2 = some e1)
    (h2 : (KeyStore.GenerateEncryptedOCRKeyBundle newB encB ks pw).1.2.2 = some e2) :
    (KeyStore.GenerateEncryptedP2PKey createKey toEnc ks pw).1 =
      (P2PKey.zero, EncryptedP2PKey.zero, some e1) ∧
    (KeyStore.GenerateEncryptedP2PKey createKey toEnc ks pw).2.p2pkeys = ks.p2pkeys ∧
    (KeyStore.GenerateEncryptedP2PKey createKey toEnc ks pw).2.ocrkeys = ks.ocrkeys ∧
    (KeyStore.GenerateEncryptedOCRKeyBundle newB encB ks pw).1 =
      (KeyBundle.zero, EncryptedKeyBundle.zero, some e2) ∧
    (KeyStore.GenerateEncryptedOCRKeyBundle newB encB ks pw).2.p2pkeys = ks.p2pkeys ∧
    (KeyStore.GenerateEncryptedOCRKeyBundle newB encB ks pw).2.ocrkeys = ks.ocrkeys := by
  have hp2pPart :
      (KeyStore.GenerateEncryptedP2PKey createKey toEnc ks pw).1 =
        (P2PKey.zero, EncryptedP2PKey.zero, some e1) ∧
      (KeyStore.GenerateEncryptedP2PKey createKey toEnc ks pw).2.p2pkeys = ks.p2pkeys ∧
      (KeyStore.GenerateEncryptedP2PKey createKey toEnc ks pw).2.ocrkeys = ks.ocrkeys := by
    cases hc : createKey.2 with
    | some e =>
      simp only [KeyStore.GenerateEncryptedP2PKey, hc] at h1 ⊢
      simp only [wrapf, Option.map_some] at h1 ⊢
      simp_all
    | none =>
    cases ht : (toEnc createKey.1 pw).2 with
    | some e =>
      simp only [KeyStore.GenerateEncryptedP2PKey, hc, ht] at h1 ⊢
      simp only [wrapf, Option.map_some] at h1 ⊢
      simp_all
    | none =>
    cases hup : (ks.UpsertEncryptedP2PKey (toEnc createKey.1 pw).1).2 with
    | some e =>
      simp only [KeyStore.GenerateEncryptedP2PKey, hc, ht, hup] at h1 ⊢
      have hpres := upsert_p2p_preserves_caches ks (toEnc createKey.1 pw).1
      simp_all
    | none => simp [KeyStore.GenerateEncryptedP2PKey, hc, ht, hup] at h1
  have hocrPart :
      (KeyStore.GenerateEncryptedOCRKeyBundle newB encB ks pw).1 =
        (KeyBundle.zero, EncryptedKeyBundle.zero, some e2) ∧
      (KeyStore.GenerateEncryptedOCRKeyBundle newB encB ks pw).2.p2pkeys = ks.p2pkeys ∧
      (KeyStore.GenerateEncryptedOCRKeyBundle newB encB ks pw).2.ocrkeys = ks.ocrkeys := by
    cases hc : newB.2 with
    | some e =>
      simp only [KeyStore.GenerateEncryptedOCRKeyBundle, hc] at h2 ⊢
      simp only [wrapf, Option.map_some] at h2 ⊢
      simp_all
    | none =>
    cases ht : (encB newB.1 pw).2 with
    | some e =>
      simp only [KeyStore.GenerateEncryptedOCRKeyBundle, hc, ht] at h2 ⊢
      simp only [wrapf, Option.map_some] at h2 ⊢
      simp_all
    | none =>
    cases hcr : (ks.CreateEncryptedOCRKeyBundle (encB newB.1 pw).1).2 with
    | some e =>
      simp only [KeyStore.GenerateEncryptedOCRKeyBundle, hc, ht, hcr] at h2 ⊢
      have hpres := create_ocr_preserves_caches ks (encB newB.1 pw).1
      simp_all
    | none => simp [KeyStore.GenerateEncryptedOCRKeyBundle, hc, ht, hcr] at h2
  exact ⟨hp2pPart.1, hp2pPart.2.1, hp2pPart.2.2, hocrPart.1, hocrPart.2.1, hocrPart.2.2⟩

/-- Witness for C9: failing key creation for both generators on `witnessKS`
returns wrapped errors, zero values, and untouched caches. -/
theorem generate_failure_atomic_witness :
    (KeyStore.GenerateEncryptedP2PKey (⟨0⟩, some "rng down") witnessToEnc witnessKS "pw").1.2.2 =
      some "while generating new p2p key: rng down" ∧
    (KeyStore.GenerateEncryptedOCRKeyBundle (⟨"", 0⟩, some "rng down") witnessEncB
        witnessKS "pw").1.2.2 = some "while generating the new OCR key bundle: rng down" ∧
    (KeyStore.GenerateEncryptedP2PKey (⟨0⟩, some "rng down") witnessToEnc witnessKS "pw").1 =
      (P2PKey.zero, EncryptedP2PKey.zero, some "while generating new p2p key: rng down") ∧
    (KeyStore.GenerateEncryptedP2PKey (⟨0⟩, some "rng down") witnessToEnc
        witnessKS "pw").2.p2pkeys = witnessKS.p2pkeys ∧
    (KeyStore.GenerateEncryptedOCRKeyBundle (⟨"", 0⟩, some "rng down") witnessEncB
        witnessKS "pw").1 =
      (KeyBundle.zero, EncryptedKeyBundle.zero,
        some "while generating the new OCR key bundle: rng down") ∧
    (KeyStore.GenerateEncryptedOCRKeyBundle (⟨"", 0⟩, some "rng down") witnessEncB
        witnessKS "pw").2.ocrkeys = witnessKS.ocrkeys := by
  have h := generate_failure_atomic (⟨0⟩, some "rng down") witnessToEnc
    (⟨"", 0⟩, some "rng down") witnessEncB witnessKS "pw"
    "while generating new p2p key: rng down"
    "while generating the new OCR key bundle: rng down" (by decide) (by decide)
  exact ⟨by decide, by decide, h.1, h.2.1, h.2.2.2.1, h.2.2.2.2.2⟩

/-- C8: cache asymmetry on a partially failing unlock — a p2p key whose
decryption fails (returning the Go zero key and an error) is still inserted
into the p2p cache under the peer ID computed from that zero key, so the cache
can hold entries for keys that were not successfully decrypted; an OCR bundle
whose decryption yields a nil bundle is never inserted, so when every OCR
decrypt fails the OCR cache is unchanged. -/
theorem unlock_partial_failure_cache_asymmetry
    (dP : EncryptedP2PKey → String → P2PKey × Option Err)
    (gP : P2PKey → PeerID × Option Err)
    (dO : EncryptedKeyBundle → String → Option KeyBundle × Option Err)
    (ks : KeyStore) (pw : String) (ek : EncryptedP2PKey) (e : Err)
    (hmem : ek ∈ ks.FindEncryptedP2PKeys.1)
    (hfail : dP ek pw = (P2PKey.zero, some e))
    (hagree : ∀ ek2 ∈ ks.FindEncryptedP2PKeys.1,
      (gP (dP ek2 pw).1).1 = (gP P2PKey.zero).1 → (dP ek2 pw).1 = P2PKey.zero)
    (hocr : ∀ ekb ∈ ks.FindEncryptedOCRKeyBundles.1, (dO ekb pw).1 = none) :
    ((KeyStore.Unlock dP gP dO ks pw).1.DecryptedP2PKey (gP P2PKey.zero).1).1 =
      (P2PKey.zero, true) ∧
    (KeyStore.Unlock dP gP dO ks pw).1.ocrkeys = ks.ocrkeys := by
  have hz : (dP ek pw).1 = P2PKey.zero := by rw [hfail]
  constructor
  · have hagree2 : ∀ ek2 ∈ ks.FindEncryptedP2PKeys.1,
        (gP (dP ek2 pw).1).1 = (gP (dP ek pw).1).1 → (dP ek2 pw).1 = (dP ek pw).1 := by
      intro ek2 h2 hp
      rw [hz] at hp ⊢
      exact hagree ek2 h2 hp
    have hl := unlockP2PLoop_lookup dP gP pw ks.FindEncryptedP2PKeys.1
      ks.p2pkeys
      (multierrAppend (multierrAppend [] ks.FindEncryptedP2PKeys.2)
        ks.FindEncryptedOCRKeyBundles.2)
      ek hmem hagree2
    rw [hz] at hl
    simp [KeyStore.Unlock, KeyStore.DecryptedP2PKey, hl]
  · have hun := unlockOCRLoop_map_unchanged dO pw ks.FindEncryptedOCRKeyBundles.1
      ks.ocrkeys
      (unlockP2PLoop dP gP pw ks.FindEncryptedP2PKeys.1 ks.p2pkeys
        (multierrAppend (multierrAppend [] ks.FindEncryptedP2PKeys.2)
          ks.FindEncryptedOCRKeyBundles.2)).2
      hocr
    simp [KeyStore.Unlock, hun]

/-- Witness for C8: unlocking `witnessKS` with failing decryption caches a zero
p2p key under the derived peer ID while leaving the OCR cache empty. -/
theorem unlock_partial_failure_cache_asymmetry_witness :
    (⟨"peerA", 1, 11⟩ : EncryptedP2PKey) ∈ witnessKS.FindEncryptedP2PKeys.1 ∧
    witnessDPFail ⟨"peerA", 1, 11⟩ "pw" = (P2PKey.zero, some "could not decrypt") ∧
    ((KeyStore.Unlock witnessDPFail witnessGP witnessDOFail witnessKS "pw").1.DecryptedP2PKey
        "peerX").1 = (P2PKey.zero, true) ∧
    (KeyStore.Unlock witnessDPFail witnessGP witnessDOFail witnessKS "pw").1.ocrkeys =
      witnessKS.ocrkeys := by
  have h := unlock_partial_failure_cache_asymmetry witnessDPFail witnessGP witnessDOFail
    witnessKS "pw" ⟨"peerA", 1, 11⟩ "could not decrypt" (by decide) (by decide)
    (by decide) (by decide)
  exact ⟨by decide, by decide, h.1, h.2⟩

end offchainreporting
